import Mathlib

/-!
# grpcstatsd: statsd timing interceptors for gRPC servers

A shallow embedding of `grpcstatsd.go` together with the library functions it
calls (`path.Dir`, `path.Base`, `grpc.Code`, `codes.Code.String`, `time.Since`,
`fmt.Println`, `statsd.Client.Timing`), followed by the properties of the
interceptors.

Conventions of the embedding

* A Go `string` is a sequence of bytes: `GoString` is a list of byte values.
  `path[r] == '/'` in Go compares one byte, and `s[1:]` drops one byte.
* A Go pointer or func value that may be `nil` is a `Ptr`.
* Effects are explicit: a function that prints, reads the clock or talks to the
  statsd client takes and returns the `World`.
* A run-time panic (nil dereference, slice out of range, a panic of the wrapped
  handler) is the `error` side of `Except Fault`.
* Loops whose trip count is not structural carry a fuel argument and return
  `none` when it runs out; totality is proved separately.
-/

/-- A Go `string`: its bytes, in order. -/
abbrev GoString := List Nat

/-- The bytes of an ASCII literal. -/
def bytes (s : String) : GoString := s.toList.map Char.toNat

/-- The byte `'/'`. -/
def slash : Nat := 47

/-- The byte `'.'`. -/
def dot : Nat := 46

/-- What a goroutine can die of inside the interceptor. -/
inductive Fault where
  | nilDereference
  | sliceOutOfRange
  | outOfFuel
  | handlerPanic (v : Nat)
  deriving DecidableEq, Repr

/-- A Go pointer or func value: `nil`, or a reference to a value. -/
inductive Ptr (α : Type) where
  | nil : Ptr α
  | ref : α → Ptr α
  deriving DecidableEq, Repr

/-- Go's `s[i:]` on a string: panics unless `i ≤ len(s)`. -/
def sliceFrom (s : GoString) (i : Nat) : Except Fault GoString :=
  if i ≤ s.length then .ok (s.drop i) else .error Fault.sliceOutOfRange

/-- Go's `p.f` through a pointer: panics on `nil`. -/
def deref {α : Type} : Ptr α → Except Fault α
  | Ptr.nil => .error Fault.nilDereference
  | Ptr.ref a => .ok a

/-- A fuelled library loop that ran dry is reported as a fault. -/
def orOutOfFuel {α : Type} : Option α → Except Fault α
  | none => .error Fault.outOfFuel
  | some a => .ok a

namespace bytealg

/-- The loop of `LastIndexByteString`:
`for i := len(s) - 1; i >= 0; i-- { if s[i] == c { return i } }; return -1`,
with the argument standing for `i + 1`. -/
def lastIndexLoop (s : GoString) (c : Nat) : Nat → Int
  | 0 => -1
  | i + 1 => if s[i]? = some c then (i : Int) else lastIndexLoop s c i

/-- Index of the last byte `c` in `s`, or `-1`. -/
def LastIndexByteString (s : GoString) (c : Nat) : Int :=
  lastIndexLoop s c s.length

end bytealg

namespace path

/-- The inner loop of the `..` case of `Clean`, run after `out.w--`:
`for out.w > dotdot && out.index(out.w) != '/' { out.w-- }`.
The argument is `out.w`; the result is the final `out.w`. -/
def backtrackLoop (out : GoString) (dotdot : Nat) : Nat → Nat
  | 0 => 0
  | w + 1 =>
    if w + 1 > dotdot ∧ out[w + 1]? ≠ some slash then backtrackLoop out dotdot w
    else w + 1

/-- The copy loop of `Clean`:
`for ; r < n && path[r] != '/'; r++ { out.append(path[r]) }`.
The first argument is `path[r:]`; returns the rest of the path and the buffer. -/
def copyElement : GoString → GoString → GoString × GoString
  | [], out => ([], out)
  | c :: t, out => if c ≠ slash then copyElement t (out ++ [c]) else (c :: t, out)

/-- The main loop `for r < n { switch { ... } }` of `Clean`.
`rest` is `path[r:]`, `out` is the output buffer `out[0:out.w]` (the `lazybuf`
of the Go source is this buffer, shared with the input while they agree), so
`out.w` is `out.length`. One unit of fuel is one iteration. -/
def cleanLoop (rooted : Bool) : Nat → GoString → GoString → Nat → Option GoString
  | 0, _, _, _ => none
  | _ + 1, [], out, _ => some out
  | fuel + 1, c :: t, out, dotdot =>
    if c = slash then
      -- empty path element
      cleanLoop rooted fuel t out dotdot
    else if c = dot ∧ (t = [] ∨ t.head? = some slash) then
      -- . element
      cleanLoop rooted fuel t out dotdot
    else if c = dot ∧ t.head? = some dot ∧ (t.tail = [] ∨ t.tail.head? = some slash) then
      -- .. element: remove to last /
      if out.length > dotdot then
        -- can backtrack
        cleanLoop rooted fuel t.tail
          (out.take (backtrackLoop out dotdot (out.length - 1))) dotdot
      else if rooted = false then
        -- cannot backtrack, but not rooted, so append .. element
        let out1 := if out.length > 0 then out ++ [slash] else out
        let out2 := out1 ++ [dot, dot]
        cleanLoop rooted fuel t.tail out2 out2.length
      else
        cleanLoop rooted fuel t.tail out dotdot
    else
      -- real path element: add slash if needed, copy element
      let out1 :=
        if (rooted = true ∧ out.length ≠ 1) ∨ (rooted = false ∧ out.length ≠ 0) then
          out ++ [slash]
        else out
      let st := copyElement (c :: t) out1
      cleanLoop rooted fuel st.1 st.2 dotdot

/-- Go's `path.Clean`: the shortest path name equivalent to `p`. -/
def Clean (p : GoString) : Option GoString :=
  if p = [] then some (bytes ".")
  else
    let rooted : Bool := decide (p.head? = some slash)
    let n := p.length
    let res :=
      if rooted then cleanLoop rooted (n + 1) p.tail [slash] 1
      else cleanLoop rooted (n + 1) p [] 0
    match res with
    | none => none
    | some out => if out.length = 0 then some (bytes ".") else some out

/-- Go's `path.Split`: `i := LastIndexByteString(path, '/')`,
`return path[:i+1], path[i+1:]`. -/
def Split (p : GoString) : GoString × GoString :=
  let i := bytealg.LastIndexByteString p slash
  (p.take (i + 1).toNat, p.drop (i + 1).toNat)

/-- Go's `path.Base`: the last element of the path. -/
def Base (p : GoString) : GoString :=
  if p = [] then bytes "."
  else
    -- strip trailing slashes
    let p1 := p.rdropWhile (fun c => c == slash)
    -- find the last element
    let i := bytealg.LastIndexByteString p1 slash
    let p2 := if i ≥ 0 then p1.drop (i + 1).toNat else p1
    -- if empty now, it had only slashes
    if p2 = [] then bytes "/" else p2

/-- Go's `path.Dir`: all but the last element of the path, cleaned. -/
def Dir (p : GoString) : Option GoString :=
  Clean (Split p).1

end path

namespace strconv

/-- Go's `strconv.FormatInt(n, 10)` for a value that is not negative. -/
def FormatInt (n : Nat) : GoString := (Nat.toDigits 10 n).map Char.toNat

end strconv

namespace codes

/-- The type `codes.Code` (a `uint32`). -/
abbrev Code := Nat

def OK : Code := 0
def Canceled : Code := 1
def Unknown : Code := 2
def InvalidArgument : Code := 3
def DeadlineExceeded : Code := 4
def NotFound : Code := 5
def AlreadyExists : Code := 6
def PermissionDenied : Code := 7
def ResourceExhausted : Code := 8
def FailedPrecondition : Code := 9
def Aborted : Code := 10
def OutOfRange : Code := 11
def Unimplemented : Code := 12
def Internal : Code := 13
def Unavailable : Code := 14
def DataLoss : Code := 15
def Unauthenticated : Code := 16

/-- The method `func (c Code) String() string`: the name of the code, and
`Code(n)` for a number without a name. -/
def Code.String (c : Code) : GoString :=
  match c with
  | 0 => bytes "OK"
  | 1 => bytes "Canceled"
  | 2 => bytes "Unknown"
  | 3 => bytes "InvalidArgument"
  | 4 => bytes "DeadlineExceeded"
  | 5 => bytes "NotFound"
  | 6 => bytes "AlreadyExists"
  | 7 => bytes "PermissionDenied"
  | 8 => bytes "ResourceExhausted"
  | 9 => bytes "FailedPrecondition"
  | 10 => bytes "Aborted"
  | 11 => bytes "OutOfRange"
  | 12 => bytes "Unimplemented"
  | 13 => bytes "Internal"
  | 14 => bytes "Unavailable"
  | 15 => bytes "DataLoss"
  | 16 => bytes "Unauthenticated"
  | n => bytes "Code(" ++ strconv.FormatInt n ++ bytes ")"

end codes

/-- A non-nil value of Go's `error` interface, as far as `grpc.Code` can tell
errors apart: one made by the framework, which carries a status code, or any
other error. -/
inductive GoError where
  | rpc (code : codes.Code) (desc : GoString)
  | other (msg : GoString)
  deriving DecidableEq, Repr

/-- Go's `error`: `none` is `nil`. -/
abbrev error := Option GoError

namespace time

/-- The type `time.Duration`: an `int64` count of nanoseconds. -/
abbrev Duration := Int

/-- The monotonic clock reading carried by a `time.Time`, in nanoseconds. -/
abbrev Time := Int

def minDuration : Duration := -(2 ^ 63)
def maxDuration : Duration := 2 ^ 63 - 1

/-- Two's complement wrap-around of an `int64` result. -/
def wrap64 (x : Int) : Int := (x + 2 ^ 63) % 2 ^ 64 - 2 ^ 63

/-- The difference `t - u` of two monotonic readings, saturating. -/
def subMono (t u : Int) : Duration :=
  let d := wrap64 (t - u)
  if d < 0 ∧ t > u then maxDuration
  else if d > 0 ∧ t < u then minDuration
  else d

end time

namespace statsd

/-- The identity of a `statsd.Client` object. -/
abbrev Client := Nat

/-- One call `client.Timing(name, value, tags, rate)`, as the client receives it. -/
structure TimingCall where
  client : Client
  name : GoString
  value : time.Duration
  tags : List GoString
  rate : Rat
  deriving DecidableEq, Repr

end statsd

namespace grpcstatsd

/-- The struct `grpcStats`. -/
structure grpcStats where
  metricName : GoString
  service : GoString
  method : GoString
  duration : time.Duration
  code : codes.Code
  deriving DecidableEq, Repr

end grpcstatsd

/-- The state outside the interceptor that its code reads or writes.
* `now`: the reading of the process clock; it moves while the handler runs;
* `stdout`: what has been written to standard output, one entry per write;
* `sink`: the calls of `Timing` received by statsd clients, oldest first;
* `sends`: the call trace of `grpcStats.send`: receiver and argument of every
  call so far.
The wrapped handler is arbitrary code and may change all of it. -/
structure World where
  now : time.Time
  stdout : List GoString
  sink : List statsd.TimingCall
  sends : List (grpcstatsd.grpcStats × Ptr statsd.Client)
  deriving DecidableEq, Repr

namespace time

/-- Go's `time.Now()`, as far as `time.Since` looks at it. -/
def Now (w : World) : Time := w.now

/-- Go's `time.Since(t)`. -/
def Since (t : Time) (w : World) : Duration := subMono w.now t

end time

namespace fmt

/-- Go's `fmt.Println(s)` for one string: writes `s` and a newline. -/
def Println (s : GoString) (w : World) : World :=
  { w with stdout := w.stdout ++ [s ++ [10]] }

/-- Go's `fmt.Sprintf(prefix + "%s", s)` for a string `s`. -/
def Sprintf_s (pfx : GoString) (s : GoString) : GoString := pfx ++ s

end fmt

namespace statsd

/-- The method `client.Timing(name, value, tags, rate)` on a client that is not
nil: the sample is handed to the client. The `error` it returns is dropped by
the only caller. -/
def Client.Timing (c : Client) (name : GoString) (value : time.Duration)
    (tags : List GoString) (rate : Rat) (w : World) : World :=
  { w with sink := w.sink ++ [{ client := c, name := name, value := value, tags := tags, rate := rate }] }

end statsd

namespace grpc

/-- Go's `grpc.Code(err)`: `OK` for `nil`, the carried code for an error of the
framework, `Unknown` for any other error. -/
def Code : error → codes.Code
  | none => codes.OK
  | some (GoError.rpc c _) => c
  | some (GoError.other _) => codes.Unknown

/-- The struct `grpc.UnaryServerInfo`: the field the interceptor reads. -/
structure UnaryServerInfo where
  FullMethod : GoString
  deriving DecidableEq, Repr

/-- The struct `grpc.StreamServerInfo`: the field the interceptor reads. -/
structure StreamServerInfo where
  FullMethod : GoString
  deriving DecidableEq, Repr

/-- The type `grpc.UnaryHandler`: `func(ctx, req) (interface{}, error)`, run in
a world; it returns, or panics. -/
abbrev UnaryHandler (Ctx Req Resp : Type) :=
  Ctx → Req → World → Except Fault ((Resp × error) × World)

/-- The type `grpc.StreamHandler`: `func(srv, stream) error`. -/
abbrev StreamHandler (Srv Stream : Type) :=
  Srv → Stream → World → Except Fault (error × World)

end grpc

namespace grpcstatsd

/-- The method `func (g grpcStats) toTags() []string`. -/
def grpcStats.toTags (g : grpcStats) : List GoString :=
  [ fmt.Sprintf_s (bytes "grpc.service:") g.service,
    fmt.Sprintf_s (bytes "grpc.method:") g.method,
    fmt.Sprintf_s (bytes "grpc.code:") (codes.Code.String g.code) ]

/-- The method `func (g grpcStats) send(client *statsd.Client)`. -/
def grpcStats.send (g : grpcStats) (client : Ptr statsd.Client) (w : World) : World :=
  let w := { w with sends := w.sends ++ [(g, client)] }
  match client with
  | Ptr.nil => fmt.Println (bytes "statsd client is nil in grpcstatsd middleware") w
  | Ptr.ref c => statsd.Client.Timing c g.metricName g.duration g.toTags 1 w

/-- The type `ErrorToCode`: `func(err error) codes.Code`. -/
abbrev ErrorToCode := error → codes.Code

/-- The function `DefaultErrorToCode`. -/
def DefaultErrorToCode (err : error) : codes.Code := grpc.Code err

/-- The struct `Option`; an unset `ErrorToCode` is the nil func value. -/
structure Option where
  MetricName : GoString
  ErrorToCode : Ptr ErrorToCode

/-- The function `setDefaults`. The result stands for the struct the returned
pointer points to, which is never nil. -/
def setDefaults (o : Ptr Option) : Option :=
  let o : Option :=
    match o with
    | Ptr.nil => { MetricName := [], ErrorToCode := Ptr.nil }
    | Ptr.ref v => v
  let o : Option :=
    if o.MetricName = [] then { o with MetricName := bytes "grpc_middleware" } else o
  let o : Option :=
    match o.ErrorToCode with
    | Ptr.nil => { o with ErrorToCode := Ptr.ref DefaultErrorToCode }
    | Ptr.ref _ => o
  o

/-- The function `UnaryServerInterceptor`: the closure it returns, applied to
`ctx, req, info, handler` in a world. -/
def UnaryServerInterceptor {Ctx Req Resp : Type} (client : Ptr statsd.Client) (o : Ptr Option) :
    Ctx → Req → Ptr grpc.UnaryServerInfo → grpc.UnaryHandler Ctx Req Resp → World →
      Except Fault ((Resp × error) × World) :=
  let o := setDefaults o
  fun ctx req info handler w => do
    -- before
    let startTime := time.Now w
    -- processing
    let ((resp, err), w) ← handler ctx req w
    -- after
    let info ← deref info
    let dir ← orOutOfFuel (path.Dir info.FullMethod)
    let service ← sliceFrom dir 1
    let method := path.Base info.FullMethod
    let duration := time.Since startTime w
    let errorToCode ← deref o.ErrorToCode
    let gs : grpcStats :=
      { metricName := o.MetricName
        service := service
        method := method
        duration := duration
        code := errorToCode err }
    let w := gs.send client w
    return ((resp, err), w)

/-- The function `StreamServerInterceptor`: the closure it returns, applied to
`srv, stream, info, handler` in a world. -/
def StreamServerInterceptor {Srv Stream : Type} (client : Ptr statsd.Client) (o : Ptr Option) :
    Srv → Stream → Ptr grpc.StreamServerInfo → grpc.StreamHandler Srv Stream → World →
      Except Fault (error × World) :=
  let o := setDefaults o
  fun srv stream info handler w => do
    -- before
    let startTime := time.Now w
    -- processing
    let (err, w) ← handler srv stream w
    -- after
    let info ← deref info
    let dir ← orOutOfFuel (path.Dir info.FullMethod)
    let service ← sliceFrom dir 1
    let method := path.Base info.FullMethod
    let duration := time.Since startTime w
    let errorToCode ← deref o.ErrorToCode
    let gs : grpcStats :=
      { metricName := o.MetricName
        service := service
        method := method
        duration := duration
        code := errorToCode err }
    let w := gs.send client w
    return (err, w)

end grpcstatsd

namespace grpcstatsd.Examples

/-- A world in which nothing has happened yet. -/
def freshWorld : World := { now := 1000, stdout := [], sink := [], sends := [] }

/-- A unary handler that answers `42` without error after 50 ns. -/
def okUnary : grpc.UnaryHandler Unit Unit Nat :=
  fun _ _ w => .ok ((42, none), { w with now := w.now + 50 })

/-- A unary handler that fails with a framework error `NotFound` after 50 ns. -/
def notFoundUnary : grpc.UnaryHandler Unit Unit Nat :=
  fun _ _ w => .ok ((0, some (GoError.rpc codes.NotFound (bytes "no such thing"))),
    { w with now := w.now + 50 })

/-- A stream handler that ends without error after 50 ns. -/
def okStream : grpc.StreamHandler Unit Unit :=
  fun _ _ w => .ok (none, { w with now := w.now + 50 })

/-- A stream handler that fails with a framework error `NotFound` after 50 ns. -/
def notFoundStream : grpc.StreamHandler Unit Unit :=
  fun _ _ w => .ok (some (GoError.rpc codes.NotFound (bytes "no such thing")),
    { w with now := w.now + 50 })

/-- A caller-supplied `ErrorToCode` that only knows errors of the framework:
the carried code for those, `Unknown` for everything else, `nil` included. -/
def onlyRpcErrors : ErrorToCode
  | some (GoError.rpc c _) => c
  | _ => codes.Unknown

end grpcstatsd.Examples

/-! ## Library lemmas: `path` -/

namespace path

theorem copyElement_rest_length (rest out : GoString) :
    (copyElement rest out).1.length ≤ rest.length := by
  induction rest generalizing out with
  | nil => simp [copyElement]
  | cons c t ih =>
    simp only [copyElement]
    split
    · exact Nat.le_succ_of_le (ih _)
    · simp

theorem copyElement_cons_rest_length (c : Nat) (t out : GoString) (hc : c ≠ slash) :
    (copyElement (c :: t) out).1.length ≤ t.length := by
  simp only [copyElement, hc, ne_eq, not_false_eq_true, if_true]
  exact copyElement_rest_length _ _

theorem cleanLoop_total (rooted : Bool) (fuel : Nat) :
    ∀ (rest out : GoString) (dotdot : Nat), rest.length < fuel →
      ∃ s, cleanLoop rooted fuel rest out dotdot = some s := by
  induction fuel with
  | zero => intro rest out dotdot h; omega
  | succ fuel ih =>
    intro rest out dotdot h
    cases rest with
    | nil => exact ⟨out, rfl⟩
    | cons c t =>
      have ht : t.length < fuel := by simpa using h
      have htt : t.tail.length < fuel := by
        have : t.tail.length ≤ t.length := by simp
        omega
      simp only [cleanLoop]
      split_ifs with h1
      all_goals first
        | exact ih _ _ _ ht
        | exact ih _ _ _ htt
        | exact ih _ _ _ (lt_of_le_of_lt (copyElement_cons_rest_length c t _ h1) ht)

theorem Clean_total (p : GoString) : ∃ s, Clean p = some s ∧ s ≠ [] := by
  unfold Clean
  split_ifs with hp
  · exact ⟨bytes ".", rfl, by decide⟩
  · simp only
    split_ifs with hr
    · obtain ⟨s, hs⟩ := cleanLoop_total (decide (p.head? = some slash)) (p.length + 1) p.tail [slash] 1
        (by simp; omega)
      rw [hs]
      by_cases h0 : s.length = 0
      · exact ⟨bytes ".", by simp [h0], by decide⟩
      · exact ⟨s, by simp [h0], by intro h; simp [h] at h0⟩
    · obtain ⟨s, hs⟩ := cleanLoop_total (decide (p.head? = some slash)) (p.length + 1) p [] 0
        (by simp)
      rw [hs]
      by_cases h0 : s.length = 0
      · exact ⟨bytes ".", by simp [h0], by decide⟩
      · exact ⟨s, by simp [h0], by intro h; simp [h] at h0⟩

theorem Dir_total (p : GoString) : ∃ s, Dir p = some s ∧ s ≠ [] :=
  Clean_total _

/-- The model of `Clean` on entries of the table of Go's own test of `path.Clean`. -/
theorem Clean_test_table :
    Clean (bytes "") = some (bytes ".") ∧
    Clean (bytes "abc/def") = some (bytes "abc/def") ∧
    Clean (bytes "..") = some (bytes "..") ∧
    Clean (bytes "../../abc") = some (bytes "../../abc") ∧
    Clean (bytes "/") = some (bytes "/") ∧
    Clean (bytes "abc/def/") = some (bytes "abc/def") ∧
    Clean (bytes "../../") = some (bytes "../..") ∧
    Clean (bytes "abc//def//ghi") = some (bytes "abc/def/ghi") ∧
    Clean (bytes "//abc//") = some (bytes "/abc") ∧
    Clean (bytes "/./abc/def") = some (bytes "/abc/def") ∧
    Clean (bytes "abc/.") = some (bytes "abc") ∧
    Clean (bytes "abc/def/../ghi/../jkl") = some (bytes "abc/jkl") ∧
    Clean (bytes "abc/def/../..") = some (bytes ".") ∧
    Clean (bytes "/abc/def/../../..") = some (bytes "/") ∧
    Clean (bytes "abc/def/../../../ghi/jkl/../../../mno") = some (bytes "../../mno") ∧
    Clean (bytes "abc/../../././../def") = some (bytes "../../def") := by
  decide

/-- The models of `Dir` and `Base` on entries of the tables of Go's own tests. -/
theorem Dir_Base_test_table :
    Dir (bytes "") = some (bytes ".") ∧
    Dir (bytes "/.") = some (bytes "/") ∧
    Dir (bytes "////") = some (bytes "/") ∧
    Dir (bytes "/foo") = some (bytes "/") ∧
    Dir (bytes "x/") = some (bytes "x") ∧
    Dir (bytes "abc") = some (bytes ".") ∧
    Dir (bytes "abc////def") = some (bytes "abc") ∧
    Dir (bytes "a/b/c.x") = some (bytes "a/b") ∧
    Base (bytes "") = bytes "." ∧
    Base (bytes "/.") = bytes "." ∧
    Base (bytes "////") = bytes "/" ∧
    Base (bytes "x/") = bytes "x" ∧
    Base (bytes "abc/def") = bytes "def" ∧
    Base (bytes "a/b/.x") = bytes ".x" := by
  decide

end path

/-! ## Library lemmas: paths of the form `/S/M` -/

namespace bytealg

theorem lastIndexLoop_append (A M : GoString) (c : Nat) (hM : c ∉ M) :
    ∀ k, k ≤ M.length → lastIndexLoop (A ++ c :: M) c (A.length + 1 + k) = (A.length : Int) := by
  intro k
  induction k with
  | zero =>
    intro _
    have h0 : (A ++ c :: M)[A.length]? = some c := by
      rw [List.getElem?_append_right (le_refl _)]
      simp
    simp [lastIndexLoop, h0]
  | succ k ih =>
    intro hk
    have hk1 : k < M.length := hk
    have hget : (A ++ c :: M)[A.length + 1 + k]? = some (M.get ⟨k, hk1⟩) := by
      rw [List.getElem?_append_right (by omega)]
      have : A.length + 1 + k - A.length = k + 1 := by omega
      rw [this]
      simp
    have hne : M.get ⟨k, hk1⟩ ≠ c := by
      intro h
      exact hM (h ▸ List.get_mem M k hk1)
    rw [show A.length + 1 + (k + 1) = (A.length + 1 + k) + 1 from rfl, lastIndexLoop, hget]
    simp only [Option.some.injEq, hne, if_false]
    exact ih (by omega)

theorem LastIndexByteString_append (A M : GoString) (c : Nat) (hM : c ∉ M) :
    LastIndexByteString (A ++ c :: M) c = (A.length : Int) := by
  unfold LastIndexByteString
  have e : (A ++ c :: M).length = A.length + 1 + M.length := by
    simp only [List.length_append, List.length_cons]
    omega
  rw [e]
  exact lastIndexLoop_append A M c hM M.length (le_refl _)

end bytealg

namespace path

theorem Split_append (A M : GoString) (hM : slash ∉ M) :
    Split (A ++ slash :: M) = (A ++ [slash], M) := by
  unfold Split
  rw [bytealg.LastIndexByteString_append A M slash hM]
  have h1 : ((A.length : Int) + 1).toNat = A.length + 1 := by omega
  simp only [h1]
  have e : A ++ slash :: M = (A ++ [slash]) ++ M := by simp
  have l : (A ++ [slash]).length = A.length + 1 := by simp
  rw [e, ← l, List.take_left, List.drop_left]

theorem copyElement_append (S R out : GoString) (hS : slash ∉ S) :
    copyElement (S ++ slash :: R) out = (slash :: R, out ++ S) := by
  induction S generalizing out with
  | nil => simp [copyElement]
  | cons c t ih =>
    have hc : c ≠ slash := by
      intro h; exact hS (by simp [h])
    have ht : slash ∉ t := by
      intro h; exact hS (by simp [h])
    rw [List.cons_append, copyElement]
    simp only [hc, ne_eq, not_false_eq_true, if_true]
    rw [ih _ ht]
    simp

theorem cleanLoop_one_element (S : GoString) (k : Nat) (hne : S ≠ []) (hS : slash ∉ S)
    (hdot : S ≠ [dot]) (hdotdot : S ≠ [dot, dot]) :
    cleanLoop true (k + 3) (S ++ [slash]) [slash] 1 = some (slash :: S) := by
  cases S with
  | nil => exact absurd rfl hne
  | cons c t =>
    have hc : c ≠ slash := by
      intro h; exact hS (by simp [h])
    have ht : slash ∉ t := by
      intro h; exact hS (by simp [h])
    have h2 : ¬ (c = dot ∧ (t ++ [slash] = [] ∨ (t ++ [slash]).head? = some slash)) := by
      rintro ⟨hcd, h | h⟩
      · simp at h
      · cases t with
        | nil => exact hdot (by rw [hcd])
        | cons d u =>
          simp only [List.cons_append, List.head?_cons, Option.some.injEq] at h
          exact ht (by simp [h])
    have h3 : ¬ (c = dot ∧ (t ++ [slash]).head? = some dot ∧
        ((t ++ [slash]).tail = [] ∨ (t ++ [slash]).tail.head? = some slash)) := by
      rintro ⟨hcd, hd, h⟩
      cases t with
      | nil => simp [slash, dot] at hd
      | cons d u =>
        simp only [List.cons_append, List.head?_cons, Option.some.injEq] at hd
        simp only [List.cons_append, List.tail_cons] at h
        rcases h with h | h
        · simp at h
        · cases u with
          | nil => exact hdotdot (by rw [hcd, hd])
          | cons e v =>
            simp only [List.cons_append, List.head?_cons, Option.some.injEq] at h
            exact ht (by simp [h])
    have hcopy := copyElement_append (c :: t) [] [slash] hS
    rw [List.cons_append] at hcopy ⊢
    rw [cleanLoop]
    simp only [hc, if_false, h2, h3]
    simp only [List.length_singleton, ne_eq, not_true_eq_false, and_false, Bool.true_eq_false,
      false_and, or_self, if_false, hcopy]
    simp [cleanLoop]

theorem Clean_one_element (S : GoString) (hne : S ≠ []) (hS : slash ∉ S)
    (hdot : S ≠ [dot]) (hdotdot : S ≠ [dot, dot]) :
    Clean (slash :: S ++ [slash]) = some (slash :: S) := by
  have h := cleanLoop_one_element S S.length hne hS hdot hdotdot
  have hf : (slash :: (S ++ [slash])).length + 1 = S.length + 3 := by simp
  unfold Clean
  simp only [List.cons_append, reduceCtorEq, if_false, List.head?_cons, decide_True, if_true,
    List.tail_cons]
  rw [hf, h]
  simp

theorem Dir_service_method (S M : GoString) (hne : S ≠ []) (hS : slash ∉ S) (hM : slash ∉ M)
    (hdot : S ≠ [dot]) (hdotdot : S ≠ [dot, dot]) :
    Dir (slash :: S ++ slash :: M) = some (slash :: S) := by
  unfold Dir
  have := Split_append (slash :: S) M hM
  rw [this]
  exact Clean_one_element S hne hS hdot hdotdot

theorem Base_service_method (A M : GoString) (hne : M ≠ []) (hM : slash ∉ M) :
    Base (A ++ slash :: M) = M := by
  unfold Base
  have hp : A ++ slash :: M ≠ [] := by simp
  have hlast : (A ++ slash :: M).rdropWhile (fun c => c == slash) = A ++ slash :: M := by
    rw [List.rdropWhile_eq_self_iff]
    intro hl
    have : (A ++ slash :: M).getLast hl = M.getLast hne := by
      simp [List.getLast_append, List.getLast_cons, hne]
    rw [this]
    have hmem := List.getLast_mem hne
    intro h
    simp only [beq_iff_eq] at h
    exact hM (h ▸ hmem)
  simp only [hp, if_false, hlast, bytealg.LastIndexByteString_append A M slash hM]
  have h1 : ((A.length : Int) + 1).toNat = A.length + 1 := by omega
  have h0 : (A.length : Int) ≥ 0 := by omega
  simp only [h0, if_true, h1]
  have e : A ++ slash :: M = (A ++ [slash]) ++ M := by simp
  have l : (A ++ [slash]).length = A.length + 1 := by simp
  rw [e, ← l, List.drop_left]
  simp [hne]

end path

/-! ## One run of an interceptor -/

namespace grpcstatsd

theorem setDefaults_ErrorToCode (o : Ptr Option) :
    (setDefaults o).ErrorToCode = Ptr.ref
      (match o with
       | Ptr.ref ⟨_, Ptr.ref f⟩ => f
       | _ => DefaultErrorToCode) := by
  rcases o with _ | ⟨name, _ | f⟩ <;> simp only [setDefaults] <;> split_ifs <;> rfl

theorem setDefaults_MetricName (o : Ptr Option) :
    (setDefaults o).MetricName =
      (match o with
       | Ptr.nil => bytes "grpc_middleware"
       | Ptr.ref v => if v.MetricName = [] then bytes "grpc_middleware" else v.MetricName) := by
  rcases o with _ | ⟨name, _ | f⟩ <;> simp only [setDefaults] <;> split_ifs <;> rfl

theorem send_sends (gs : grpcStats) (client : Ptr statsd.Client) (wh : World) :
    (grpcStats.send gs client wh).sends = wh.sends ++ [(gs, client)] := by
  cases client <;> rfl

theorem unary_run {Ctx Req Resp : Type} (client : Ptr statsd.Client) (o : Ptr Option)
    (ctx : Ctx) (req : Req) (info : grpc.UnaryServerInfo) (handler : grpc.UnaryHandler Ctx Req Resp)
    (w wh : World) (resp : Resp) (err : error)
    (h : handler ctx req w = .ok ((resp, err), wh)) :
    ∃ dir, path.Dir info.FullMethod = some dir ∧ dir ≠ [] ∧
      UnaryServerInterceptor client o ctx req (Ptr.ref info) handler w =
        .ok ((resp, err),
          grpcStats.send
            { metricName := (setDefaults o).MetricName
              service := dir.drop 1
              method := path.Base info.FullMethod
              duration := time.Since (time.Now w) wh
              code := (match o with
                | Ptr.ref ⟨_, Ptr.ref f⟩ => f
                | _ => DefaultErrorToCode) err }
            client wh) := by
  obtain ⟨dir, hd, hne⟩ := path.Dir_total info.FullMethod
  refine ⟨dir, hd, hne, ?_⟩
  have hlen : 1 ≤ dir.length := by
    cases dir with
    | nil => exact absurd rfl hne
    | cons a t => simp
  simp only [UnaryServerInterceptor, h, hd, setDefaults_ErrorToCode, deref, orOutOfFuel, sliceFrom,
    hlen, if_true, bind, Except.bind, pure, Except.pure]

theorem stream_run {Srv Stream : Type} (client : Ptr statsd.Client) (o : Ptr Option)
    (srv : Srv) (stream : Stream) (info : grpc.StreamServerInfo)
    (handler : grpc.StreamHandler Srv Stream) (w wh : World) (err : error)
    (h : handler srv stream w = .ok (err, wh)) :
    ∃ dir, path.Dir info.FullMethod = some dir ∧ dir ≠ [] ∧
      StreamServerInterceptor client o srv stream (Ptr.ref info) handler w =
        .ok (err,
          grpcStats.send
            { metricName := (setDefaults o).MetricName
              service := dir.drop 1
              method := path.Base info.FullMethod
              duration := time.Since (time.Now w) wh
              code := (match o with
                | Ptr.ref ⟨_, Ptr.ref f⟩ => f
                | _ => DefaultErrorToCode) err }
            client wh) := by
  obtain ⟨dir, hd, hne⟩ := path.Dir_total info.FullMethod
  refine ⟨dir, hd, hne, ?_⟩
  have hlen : 1 ≤ dir.length := by
    cases dir with
    | nil => exact absurd rfl hne
    | cons a t => simp
  simp only [StreamServerInterceptor, h, hd, setDefaults_ErrorToCode, deref, orOutOfFuel, sliceFrom,
    hlen, if_true, bind, Except.bind, pure, Except.pure]

/-- Outside the contract: a handler that panics takes the interceptor with it,
before any record is built. -/
theorem unary_handler_panic {Ctx Req Resp : Type} (client : Ptr statsd.Client) (o : Ptr Option)
    (ctx : Ctx) (req : Req) (info : Ptr grpc.UnaryServerInfo)
    (handler : grpc.UnaryHandler Ctx Req Resp) (w : World) (f : Fault)
    (h : handler ctx req w = .error f) :
    UnaryServerInterceptor client o ctx req info handler w = .error f := by
  simp only [UnaryServerInterceptor, h, bind, Except.bind]

/-- Outside the contract: with a nil call info the closure panics on
`info.FullMethod`, after the handler has returned. -/
theorem unary_nil_info {Ctx Req Resp : Type} (client : Ptr statsd.Client) (o : Ptr Option)
    (ctx : Ctx) (req : Req) (handler : grpc.UnaryHandler Ctx Req Resp) (w wh : World)
    (resp : Resp) (err : error) (h : handler ctx req w = .ok ((resp, err), wh)) :
    UnaryServerInterceptor client o ctx req Ptr.nil handler w = .error Fault.nilDereference := by
  simp only [UnaryServerInterceptor, h, deref, bind, Except.bind]

/-- Outside the contract: the same for the stream interceptor. -/
theorem stream_nil_info {Srv Stream : Type} (client : Ptr statsd.Client) (o : Ptr Option)
    (srv : Srv) (stream : Stream) (handler : grpc.StreamHandler Srv Stream) (w wh : World)
    (err : error) (h : handler srv stream w = .ok (err, wh)) :
    StreamServerInterceptor client o srv stream Ptr.nil handler w
      = .error Fault.nilDereference := by
  simp only [StreamServerInterceptor, h, deref, bind, Except.bind]

end grpcstatsd

/-! ## The claims -/

namespace grpcstatsd

open Examples

/-- C1: the function returned by `UnaryServerInterceptor`, for every sink handle
(nil or not), every option (nil or not, fields set or not), every context,
request, call info and handler, returns the very pair `(resp, err)` that the
handler returned when run once with the same context and request; the world it
leaves is the handler's world after one `send`. With a nil sink the same holds
and no sample reaches a client. -/
theorem C1_unary_returns_handler_result {Ctx Req Resp : Type} (client : Ptr statsd.Client)
    (o : Ptr Option) (ctx : Ctx) (req : Req) (info : grpc.UnaryServerInfo)
    (handler : grpc.UnaryHandler Ctx Req Resp) (w wh : World) (resp : Resp) (err : error)
    (h : handler ctx req w = .ok ((resp, err), wh)) :
    (∃ gs, UnaryServerInterceptor client o ctx req (Ptr.ref info) handler w
        = .ok ((resp, err), grpcStats.send gs client wh)) ∧
    (∃ w', UnaryServerInterceptor Ptr.nil o ctx req (Ptr.ref info) handler w
        = .ok ((resp, err), w') ∧ w'.sink = wh.sink) := by
  obtain ⟨_, _, _, h1⟩ := unary_run client o ctx req info handler w wh resp err h
  obtain ⟨_, _, _, h2⟩ := unary_run Ptr.nil o ctx req info handler w wh resp err h
  exact ⟨⟨_, h1⟩, ⟨_, h2, rfl⟩⟩

/-- Witness of C1: a handler failing with `NotFound`, option with a name only. -/
theorem C1_unary_returns_handler_result_witness :
    notFoundUnary () () freshWorld
      = .ok ((0, some (GoError.rpc codes.NotFound (bytes "no such thing"))),
          { freshWorld with now := 1050 }) ∧
    ((∃ gs, UnaryServerInterceptor (Ptr.ref 7) (Ptr.ref ⟨bytes "rpc", Ptr.nil⟩) () ()
        (Ptr.ref ⟨bytes "/foo.Bar/Baz"⟩) notFoundUnary freshWorld
        = .ok ((0, some (GoError.rpc codes.NotFound (bytes "no such thing"))),
            grpcStats.send gs (Ptr.ref 7) { freshWorld with now := 1050 })) ∧
     (∃ w', UnaryServerInterceptor Ptr.nil (Ptr.ref ⟨bytes "rpc", Ptr.nil⟩) () ()
        (Ptr.ref ⟨bytes "/foo.Bar/Baz"⟩) notFoundUnary freshWorld
        = .ok ((0, some (GoError.rpc codes.NotFound (bytes "no such thing"))), w') ∧
        w'.sink = ({ freshWorld with now := 1050 } : World).sink)) :=
  ⟨rfl, C1_unary_returns_handler_result (Ptr.ref 7) (Ptr.ref ⟨bytes "rpc", Ptr.nil⟩) () ()
    ⟨bytes "/foo.Bar/Baz"⟩ notFoundUnary freshWorld _ _ _ rfl⟩

/-- C2: the function returned by `StreamServerInterceptor`, for every sink
handle, option, server instance, stream, call info and stream handler, runs the
handler once with the same server instance and stream (the world it leaves is
the handler's world after one `send`) and returns the very error, or absence of
error, that the handler returned; it has no error of its own. -/
theorem C2_stream_returns_handler_error {Srv Stream : Type} (client : Ptr statsd.Client)
    (o : Ptr Option) (srv : Srv) (stream : Stream) (info : grpc.StreamServerInfo)
    (handler : grpc.StreamHandler Srv Stream) (w wh : World) (err : error)
    (h : handler srv stream w = .ok (err, wh)) :
    ∃ gs, StreamServerInterceptor client o srv stream (Ptr.ref info) handler w
        = .ok (err, grpcStats.send gs client wh) := by
  obtain ⟨_, _, _, h1⟩ := stream_run client o srv stream info handler w wh err h
  exact ⟨_, h1⟩

/-- Witness of C2: a stream that ends without error, nil sink, nil option. -/
theorem C2_stream_returns_handler_error_witness :
    okStream () () freshWorld = .ok (none, { freshWorld with now := 1050 }) ∧
    ∃ gs, StreamServerInterceptor Ptr.nil Ptr.nil () () (Ptr.ref ⟨bytes "/foo.Bar/Baz"⟩)
        okStream freshWorld
        = .ok (none, grpcStats.send gs Ptr.nil { freshWorld with now := 1050 }) :=
  ⟨rfl, C2_stream_returns_handler_error Ptr.nil Ptr.nil () () ⟨bytes "/foo.Bar/Baz"⟩
    okStream freshWorld _ _ rfl⟩

/-- C3, as stated, fails: for the path `/./Baz` (service segment `.`, which is
not empty and has no `/`) `path.Dir` cleans `/./` to `/`, so the service is the
empty string and not `.`; the same happens for the segment `..`. -/
theorem C3_counterexample_dot_service :
    bytes "/./Baz" = slash :: bytes "." ++ slash :: bytes "Baz" ∧
    bytes "." ≠ [] ∧ slash ∉ bytes "." ∧ bytes "Baz" ≠ [] ∧ slash ∉ bytes "Baz" ∧
    path.Dir (bytes "/./Baz") = some (bytes "/") ∧
    path.Dir (bytes "/../Baz") = some (bytes "/") ∧
    (orOutOfFuel (path.Dir (bytes "/./Baz")) >>= fun dir => sliceFrom dir 1) = .ok [] ∧
    (orOutOfFuel (path.Dir (bytes "/./Baz")) >>= fun dir => sliceFrom dir 1) ≠ .ok (bytes ".") := by
  refine ⟨by decide, by decide, by decide, by decide, by decide, by decide, by decide, rfl, ?_⟩
  have e : (orOutOfFuel (path.Dir (bytes "/./Baz")) >>= fun dir => sliceFrom dir 1)
      = Except.ok ([] : GoString) := rfl
  rw [e]
  intro h
  injection h with h
  exact absurd h (by decide)

/-- C3, amended: for every path `"/" ++ S ++ "/" ++ M` with `S` and `M` not empty
and without `/`, and `S` neither `.` nor `..`, the parsing done by the
interceptors gives service `S` (`path.Dir` with its first byte dropped) and
method `M` (`path.Base`). -/
theorem C3_parse_service_method (S M : GoString) (hS : S ≠ []) (hM : M ≠ [])
    (hSs : slash ∉ S) (hMs : slash ∉ M) (hdot : S ≠ bytes ".") (hdotdot : S ≠ bytes "..") :
    (orOutOfFuel (path.Dir (slash :: S ++ slash :: M)) >>= fun dir => sliceFrom dir 1) = .ok S ∧
    path.Base (slash :: S ++ slash :: M) = M := by
  constructor
  · rw [path.Dir_service_method S M hS hSs hMs hdot hdotdot]
    simp [orOutOfFuel, sliceFrom, bind, Except.bind]
  · exact path.Base_service_method (slash :: S) M hM hMs

/-- Witness of C3 amended: the path `/foo.Bar/Baz`. -/
theorem C3_parse_service_method_witness :
    (bytes "foo.Bar" ≠ [] ∧ bytes "Baz" ≠ [] ∧ slash ∉ bytes "foo.Bar" ∧ slash ∉ bytes "Baz" ∧
      bytes "foo.Bar" ≠ bytes "." ∧ bytes "foo.Bar" ≠ bytes "..") ∧
    (orOutOfFuel (path.Dir (slash :: bytes "foo.Bar" ++ slash :: bytes "Baz"))
        >>= fun dir => sliceFrom dir 1) = .ok (bytes "foo.Bar") ∧
    path.Base (slash :: bytes "foo.Bar" ++ slash :: bytes "Baz") = bytes "Baz" :=
  ⟨by decide, C3_parse_service_method (bytes "foo.Bar") (bytes "Baz") (by decide) (by decide)
    (by decide) (by decide) (by decide) (by decide)⟩

/-- C4: for every measurement record `g` and every sink that is not nil, `g.send`
hands the client exactly one timing sample: name `g.metricName`, value
`g.duration`, rate 1, and the three tags `grpc.service:` + service,
`grpc.method:` + method, `grpc.code:` + name of the code, in that order, and it
prints nothing. For the path `/foo.Bar/Baz`, a handler that returns no error and
no option, the tags are `grpc.service:foo.Bar`, `grpc.method:Baz`,
`grpc.code:OK`; for code 5 the third tag is `grpc.code:NotFound`. -/
theorem C4_send_submits_one_tagged_timing {Ctx Req Resp : Type} (g : grpcStats)
    (c : statsd.Client) (w : World) (ctx : Ctx) (req : Req)
    (handler : grpc.UnaryHandler Ctx Req Resp) (w0 wh : World) (resp : Resp)
    (h : handler ctx req w0 = .ok ((resp, none), wh)) :
    (grpcStats.send g (Ptr.ref c) w).sink = w.sink ++
      [{ client := c, name := g.metricName, value := g.duration,
         tags := [bytes "grpc.service:" ++ g.service, bytes "grpc.method:" ++ g.method,
                  bytes "grpc.code:" ++ codes.Code.String g.code],
         rate := 1 }] ∧
    (grpcStats.send g (Ptr.ref c) w).stdout = w.stdout ∧
    (∃ w', UnaryServerInterceptor (Ptr.ref c) Ptr.nil ctx req (Ptr.ref ⟨bytes "/foo.Bar/Baz"⟩)
        handler w0 = .ok ((resp, none), w') ∧
      w'.sink = wh.sink ++
        [{ client := c, name := bytes "grpc_middleware", value := time.Since (time.Now w0) wh,
           tags := [bytes "grpc.service:foo.Bar", bytes "grpc.method:Baz", bytes "grpc.code:OK"],
           rate := 1 }]) ∧
    grpcStats.toTags { g with code := 5 } =
      [bytes "grpc.service:" ++ g.service, bytes "grpc.method:" ++ g.method,
       bytes "grpc.code:NotFound"] := by
  refine ⟨rfl, rfl, ?_, rfl⟩
  obtain ⟨dir, hd, _, h1⟩ :=
    unary_run (Ptr.ref c) Ptr.nil ctx req ⟨bytes "/foo.Bar/Baz"⟩ handler w0 wh resp none h
  have hdir : dir = bytes "/foo.Bar" := by
    have e : path.Dir (bytes "/foo.Bar/Baz") = some (bytes "/foo.Bar") := by decide
    have e2 : some dir = some (bytes "/foo.Bar") := hd.symm.trans e
    exact Option.some.inj e2
  subst hdir
  exact ⟨_, h1, rfl⟩

/-- Witness of C4: a handler that answers without error after 50 ns, on the
path `/foo.Bar/Baz`, with client 7. -/
theorem C4_send_submits_one_tagged_timing_witness :
    okUnary () () freshWorld = .ok ((42, none), { freshWorld with now := 1050 }) ∧
    ∃ w', UnaryServerInterceptor (Ptr.ref 7) Ptr.nil () () (Ptr.ref ⟨bytes "/foo.Bar/Baz"⟩)
        okUnary freshWorld = .ok ((42, none), w') ∧
      w'.sink = ({ freshWorld with now := 1050 } : World).sink ++
        [{ client := 7, name := bytes "grpc_middleware", value := 50,
           tags := [bytes "grpc.service:foo.Bar", bytes "grpc.method:Baz", bytes "grpc.code:OK"],
           rate := 1 }] :=
  ⟨rfl, (C4_send_submits_one_tagged_timing ⟨bytes "m", bytes "foo.Bar", bytes "Baz", 50, codes.OK⟩
    7 freshWorld () () okUnary freshWorld _ 42 rfl).2.2.1⟩

/-- C5: `setDefaults` on a nil option gives the name `grpc_middleware` and the
mapping `DefaultErrorToCode`. On an option that is not nil the resulting name is
`grpc_middleware` exactly when the given name was empty or already
`grpc_middleware`, and is the given name whenever that is not empty; the
resulting mapping is `DefaultErrorToCode` when none was given and the given
function otherwise. An interceptor (unary or stream) built without an option
emits under the name `grpc_middleware`. -/
theorem C5_setDefaults {Ctx Req Resp Srv Stream : Type} (v : Option) (c : statsd.Client)
    (ctx : Ctx) (req : Req) (infoU : grpc.UnaryServerInfo)
    (handlerU : grpc.UnaryHandler Ctx Req Resp) (w whU : World) (resp : Resp) (errU : error)
    (srv : Srv) (stream : Stream) (infoS : grpc.StreamServerInfo)
    (handlerS : grpc.StreamHandler Srv Stream) (whS : World) (errS : error)
    (hU : handlerU ctx req w = .ok ((resp, errU), whU))
    (hS : handlerS srv stream w = .ok (errS, whS)) :
    (setDefaults Ptr.nil).MetricName = bytes "grpc_middleware" ∧
    (setDefaults Ptr.nil).ErrorToCode = Ptr.ref DefaultErrorToCode ∧
    ((setDefaults (Ptr.ref v)).MetricName = bytes "grpc_middleware" ↔
      (v.MetricName = [] ∨ v.MetricName = bytes "grpc_middleware")) ∧
    (setDefaults (Ptr.ref v)).MetricName =
      (if v.MetricName = [] then bytes "grpc_middleware" else v.MetricName) ∧
    (setDefaults (Ptr.ref v)).ErrorToCode =
      (match v.ErrorToCode with
       | Ptr.nil => Ptr.ref DefaultErrorToCode
       | Ptr.ref f => Ptr.ref f) ∧
    (∃ w' tc, UnaryServerInterceptor (Ptr.ref c) Ptr.nil ctx req (Ptr.ref infoU) handlerU w
        = .ok ((resp, errU), w') ∧
      w'.sink = whU.sink ++ [tc] ∧ tc.name = bytes "grpc_middleware") ∧
    (∃ w' tc, StreamServerInterceptor (Ptr.ref c) Ptr.nil srv stream (Ptr.ref infoS) handlerS w
        = .ok (errS, w') ∧
      w'.sink = whS.sink ++ [tc] ∧ tc.name = bytes "grpc_middleware") := by
  have hname := setDefaults_MetricName (Ptr.ref v)
  simp only at hname
  refine ⟨rfl, rfl, ?_, hname, ?_, ?_, ?_⟩
  · rw [hname]
    by_cases he : v.MetricName = []
    · simp [he]
    · simp [he]
  · rcases v with ⟨name, _ | f⟩ <;> simp only [setDefaults] <;> split_ifs <;> rfl
  · obtain ⟨_, _, _, h1⟩ := unary_run (Ptr.ref c) Ptr.nil ctx req infoU handlerU w whU resp errU hU
    exact ⟨_, _, h1, rfl, rfl⟩
  · obtain ⟨_, _, _, h1⟩ := stream_run (Ptr.ref c) Ptr.nil srv stream infoS handlerS w whS errS hS
    exact ⟨_, _, h1, rfl, rfl⟩

/-- Witness of C5: an option with the name `rpc` and no mapping. -/
theorem C5_setDefaults_witness :
    (okUnary () () freshWorld = .ok ((42, none), { freshWorld with now := 1050 }) ∧
      notFoundStream () () freshWorld
        = .ok (some (GoError.rpc codes.NotFound (bytes "no such thing")),
            { freshWorld with now := 1050 })) ∧
    (setDefaults (Ptr.ref ⟨bytes "rpc", Ptr.nil⟩)).MetricName = bytes "rpc" :=
  ⟨⟨rfl, rfl⟩, (C5_setDefaults ⟨bytes "rpc", Ptr.nil⟩ 7 () () ⟨bytes "/foo.Bar/Baz"⟩ okUnary
    freshWorld _ 42 none () () ⟨bytes "/foo.Bar/Baz"⟩ notFoundStream _ _ rfl rfl).2.2.2.1⟩

/-- C6: for every call through either interceptor whose handler returns the error
value `err`, exactly one `send` follows the handler, and the code of its record
is the configured mapping applied to that same `err`: the caller's function when
the option carries one, and `DefaultErrorToCode err`, which is `grpc.Code err`,
when the option is nil or its `ErrorToCode` is unset. -/
theorem C6_code_is_errorToCode_of_error {Ctx Req Resp Srv Stream : Type}
    (client : Ptr statsd.Client) (o : Ptr Option)
    (ctx : Ctx) (req : Req) (infoU : grpc.UnaryServerInfo)
    (handlerU : grpc.UnaryHandler Ctx Req Resp) (w whU : World) (resp : Resp) (err : error)
    (srv : Srv) (stream : Stream) (infoS : grpc.StreamServerInfo)
    (handlerS : grpc.StreamHandler Srv Stream) (whS : World)
    (hU : handlerU ctx req w = .ok ((resp, err), whU))
    (hS : handlerS srv stream w = .ok (err, whS)) :
    (∃ w' gs, UnaryServerInterceptor client o ctx req (Ptr.ref infoU) handlerU w
        = .ok ((resp, err), w') ∧
      w'.sends = whU.sends ++ [(gs, client)] ∧
      gs.code = (match o with
        | Ptr.ref ⟨_, Ptr.ref f⟩ => f err
        | _ => DefaultErrorToCode err)) ∧
    (∃ w' gs, StreamServerInterceptor client o srv stream (Ptr.ref infoS) handlerS w
        = .ok (err, w') ∧
      w'.sends = whS.sends ++ [(gs, client)] ∧
      gs.code = (match o with
        | Ptr.ref ⟨_, Ptr.ref f⟩ => f err
        | _ => DefaultErrorToCode err)) ∧
    DefaultErrorToCode err = grpc.Code err := by
  obtain ⟨_, _, _, h1⟩ := unary_run client o ctx req infoU handlerU w whU resp err hU
  obtain ⟨_, _, _, h2⟩ := stream_run client o srv stream infoS handlerS w whS err hS
  refine ⟨⟨_, _, h1, send_sends _ _ _, ?_⟩, ⟨_, _, h2, send_sends _ _ _, ?_⟩, rfl⟩
  · rcases o with _ | ⟨name, _ | f⟩ <;> rfl
  · rcases o with _ | ⟨name, _ | f⟩ <;> rfl

/-- Witness of C6: handlers failing with `NotFound`, no option: the code is
`grpc.Code` of the error, `NotFound`. -/
theorem C6_code_is_errorToCode_of_error_witness :
    (notFoundUnary () () freshWorld
        = .ok ((0, some (GoError.rpc codes.NotFound (bytes "no such thing"))),
            { freshWorld with now := 1050 }) ∧
      notFoundStream () () freshWorld
        = .ok (some (GoError.rpc codes.NotFound (bytes "no such thing")),
            { freshWorld with now := 1050 })) ∧
    ∃ w' gs, UnaryServerInterceptor (Ptr.ref 7) Ptr.nil () () (Ptr.ref ⟨bytes "/foo.Bar/Baz"⟩)
        notFoundUnary freshWorld
        = .ok ((0, some (GoError.rpc codes.NotFound (bytes "no such thing"))), w') ∧
      w'.sends = ({ freshWorld with now := 1050 } : World).sends ++ [(gs, Ptr.ref 7)] ∧
      gs.code = codes.NotFound :=
  ⟨⟨rfl, rfl⟩, (C6_code_is_errorToCode_of_error (Ptr.ref 7) Ptr.nil () ()
    ⟨bytes "/foo.Bar/Baz"⟩ notFoundUnary freshWorld _ 0 _ () () ⟨bytes "/foo.Bar/Baz"⟩
    notFoundStream _ rfl rfl).1⟩

/-- C7, as stated, fails: with the caller-supplied mapping `onlyRpcErrors`, which
answers `Unknown` for everything that is not an error of the framework, a
handler that returns no error is recorded with code `Unknown`, and the third
tag sent is `grpc.code:Unknown`. -/
theorem C7_counterexample_custom_mapping :
    okUnary () () freshWorld = .ok ((42, none), { freshWorld with now := 1050 }) ∧
    UnaryServerInterceptor (Ptr.ref 7) (Ptr.ref ⟨[], Ptr.ref onlyRpcErrors⟩) () ()
        (Ptr.ref ⟨bytes "/foo.Bar/Baz"⟩) okUnary freshWorld
      = .ok ((42, none),
          { now := 1050
            stdout := []
            sink := [{ client := 7, name := bytes "grpc_middleware", value := 50,
                       tags := [bytes "grpc.service:foo.Bar", bytes "grpc.method:Baz",
                                bytes "grpc.code:Unknown"],
                       rate := 1 }]
            sends := [(⟨bytes "grpc_middleware", bytes "foo.Bar", bytes "Baz", 50, codes.Unknown⟩,
                       Ptr.ref 7)] }) ∧
    codes.Unknown ≠ codes.OK ∧
    bytes "grpc.code:Unknown" ≠ bytes "grpc.code:OK" :=
  ⟨rfl, rfl, by decide, by decide⟩

/-- C7, amended: for every call through either interceptor whose handler returns
no error, if no mapping was configured (option nil or `ErrorToCode` unset), or
the caller's mapping sends the nil error to `OK`, then the code of the record is
`OK` and its third tag is `grpc.code:OK`. -/
theorem C7_no_error_gives_OK {Ctx Req Resp Srv Stream : Type}
    (client : Ptr statsd.Client) (o : Ptr Option)
    (ctx : Ctx) (req : Req) (infoU : grpc.UnaryServerInfo)
    (handlerU : grpc.UnaryHandler Ctx Req Resp) (w whU : World) (resp : Resp)
    (srv : Srv) (stream : Stream) (infoS : grpc.StreamServerInfo)
    (handlerS : grpc.StreamHandler Srv Stream) (whS : World)
    (hmap : (match o with
      | Ptr.ref ⟨_, Ptr.ref f⟩ => f none
      | _ => codes.OK) = codes.OK)
    (hU : handlerU ctx req w = .ok ((resp, none), whU))
    (hS : handlerS srv stream w = .ok (none, whS)) :
    (∃ w' gs, UnaryServerInterceptor client o ctx req (Ptr.ref infoU) handlerU w
        = .ok ((resp, none), w') ∧
      w'.sends = whU.sends ++ [(gs, client)] ∧ gs.code = codes.OK ∧
      gs.toTags[2]? = some (bytes "grpc.code:OK")) ∧
    (∃ w' gs, StreamServerInterceptor client o srv stream (Ptr.ref infoS) handlerS w
        = .ok (none, w') ∧
      w'.sends = whS.sends ++ [(gs, client)] ∧ gs.code = codes.OK ∧
      gs.toTags[2]? = some (bytes "grpc.code:OK")) := by
  obtain ⟨_, _, _, h1⟩ := unary_run client o ctx req infoU handlerU w whU resp none hU
  obtain ⟨_, _, _, h2⟩ := stream_run client o srv stream infoS handlerS w whS none hS
  have hcode : (match o with
      | Ptr.ref ⟨_, Ptr.ref f⟩ => f
      | _ => DefaultErrorToCode) none = codes.OK := by
    rcases o with _ | ⟨name, _ | f⟩
    · rfl
    · rfl
    · exact hmap
  refine ⟨⟨_, _, h1, send_sends _ _ _, hcode, ?_⟩, ⟨_, _, h2, send_sends _ _ _, hcode, ?_⟩⟩
  · simp only [grpcStats.toTags, hcode]
    rfl
  · simp only [grpcStats.toTags, hcode]
    rfl

/-- Witness of C7 amended: no option, handlers that return no error. -/
theorem C7_no_error_gives_OK_witness :
    (okUnary () () freshWorld = .ok ((42, none), { freshWorld with now := 1050 }) ∧
      okStream () () freshWorld = .ok (none, { freshWorld with now := 1050 })) ∧
    ∃ w' gs, StreamServerInterceptor (Ptr.ref 7) Ptr.nil () () (Ptr.ref ⟨bytes "/foo.Bar/Baz"⟩)
        okStream freshWorld = .ok (none, w') ∧
      w'.sends = ({ freshWorld with now := 1050 } : World).sends ++ [(gs, Ptr.ref 7)] ∧
      gs.code = codes.OK ∧ gs.toTags[2]? = some (bytes "grpc.code:OK") :=
  ⟨⟨rfl, rfl⟩, (C7_no_error_gives_OK (Ptr.ref 7) Ptr.nil () () ⟨bytes "/foo.Bar/Baz"⟩ okUnary
    freshWorld _ 42 () () ⟨bytes "/foo.Bar/Baz"⟩ okStream _ rfl rfl rfl).2⟩

/-- C8: for every call through either interceptor, whatever result the handler
returns, exactly one record is built and `send` is called on it exactly once,
after the handler has returned: the trace of `send` grows by that one call. With
a sink that is not nil exactly one timing sample is handed to it and nothing is
printed; with a nil sink no sample is handed over and only the diagnostic line
is printed. So the number of samples grows by 1 or by 0, never more. -/
theorem C8_one_record_one_send {Ctx Req Resp Srv Stream : Type}
    (client : Ptr statsd.Client) (o : Ptr Option)
    (ctx : Ctx) (req : Req) (infoU : grpc.UnaryServerInfo)
    (handlerU : grpc.UnaryHandler Ctx Req Resp) (w whU : World) (resp : Resp) (errU : error)
    (srv : Srv) (stream : Stream) (infoS : grpc.StreamServerInfo)
    (handlerS : grpc.StreamHandler Srv Stream) (whS : World) (errS : error)
    (hU : handlerU ctx req w = .ok ((resp, errU), whU))
    (hS : handlerS srv stream w = .ok (errS, whS)) :
    (∃ w' gs, UnaryServerInterceptor client o ctx req (Ptr.ref infoU) handlerU w
        = .ok ((resp, errU), w') ∧
      w'.sends = whU.sends ++ [(gs, client)] ∧
      (match client with
       | Ptr.ref c =>
         w'.sink = whU.sink ++
           [{ client := c, name := gs.metricName, value := gs.duration, tags := gs.toTags,
              rate := 1 }] ∧
         w'.stdout = whU.stdout
       | Ptr.nil =>
         w'.sink = whU.sink ∧
         w'.stdout = whU.stdout ++
           [bytes "statsd client is nil in grpcstatsd middleware" ++ [10]]) ∧
      w'.sink.length = whU.sink.length +
        (match client with
         | Ptr.ref _ => 1
         | Ptr.nil => 0)) ∧
    (∃ w' gs, StreamServerInterceptor client o srv stream (Ptr.ref infoS) handlerS w
        = .ok (errS, w') ∧
      w'.sends = whS.sends ++ [(gs, client)] ∧
      (match client with
       | Ptr.ref c =>
         w'.sink = whS.sink ++
           [{ client := c, name := gs.metricName, value := gs.duration, tags := gs.toTags,
              rate := 1 }] ∧
         w'.stdout = whS.stdout
       | Ptr.nil =>
         w'.sink = whS.sink ∧
         w'.stdout = whS.stdout ++
           [bytes "statsd client is nil in grpcstatsd middleware" ++ [10]]) ∧
      w'.sink.length = whS.sink.length +
        (match client with
         | Ptr.ref _ => 1
         | Ptr.nil => 0)) := by
  obtain ⟨_, _, _, h1⟩ := unary_run client o ctx req infoU handlerU w whU resp errU hU
  obtain ⟨_, _, _, h2⟩ := stream_run client o srv stream infoS handlerS w whS errS hS
  refine ⟨⟨_, _, h1, send_sends _ _ _, ?_, ?_⟩, ⟨_, _, h2, send_sends _ _ _, ?_, ?_⟩⟩
  · cases client
    · exact ⟨rfl, rfl⟩
    · exact ⟨rfl, rfl⟩
  · cases client
    · rfl
    · simp [grpcStats.send, statsd.Client.Timing]
  · cases client
    · exact ⟨rfl, rfl⟩
    · exact ⟨rfl, rfl⟩
  · cases client
    · rfl
    · simp [grpcStats.send, statsd.Client.Timing]

/-- Witness of C8: a failing unary handler and a succeeding stream handler with a
nil sink: no sample, one diagnostic line. -/
theorem C8_one_record_one_send_witness :
    (notFoundUnary () () freshWorld
        = .ok ((0, some (GoError.rpc codes.NotFound (bytes "no such thing"))),
            { freshWorld with now := 1050 }) ∧
      okStream () () freshWorld = .ok (none, { freshWorld with now := 1050 })) ∧
    ∃ w' gs, UnaryServerInterceptor Ptr.nil Ptr.nil () () (Ptr.ref ⟨bytes "/foo.Bar/Baz"⟩)
        notFoundUnary freshWorld
        = .ok ((0, some (GoError.rpc codes.NotFound (bytes "no such thing"))), w') ∧
      w'.sends = ({ freshWorld with now := 1050 } : World).sends ++ [(gs, Ptr.nil)] ∧
      (w'.sink = ({ freshWorld with now := 1050 } : World).sink ∧
        w'.stdout = ({ freshWorld with now := 1050 } : World).stdout ++
          [bytes "statsd client is nil in grpcstatsd middleware" ++ [10]]) ∧
      w'.sink.length = ({ freshWorld with now := 1050 } : World).sink.length + 0 :=
  ⟨⟨rfl, rfl⟩, (C8_one_record_one_send Ptr.nil Ptr.nil () () ⟨bytes "/foo.Bar/Baz"⟩
    notFoundUnary freshWorld _ 0 _ () () ⟨bytes "/foo.Bar/Baz"⟩ okStream _ _ rfl rfl).1⟩

/-- C9: the per-call contract is the same for unary and stream wrapping: with the
same sink, option and `FullMethod`, and handlers that return the same error and
leave the same world (so the clock readings agree), the two interceptors build
the same record, call `send` on it once, leave the same world (same samples at
the sink, same output) and return the same error. -/
theorem C9_unary_stream_same_contract {Ctx Req Resp Srv Stream : Type}
    (client : Ptr statsd.Client) (o : Ptr Option) (fullMethod : GoString)
    (ctx : Ctx) (req : Req) (handlerU : grpc.UnaryHandler Ctx Req Resp)
    (srv : Srv) (stream : Stream) (handlerS : grpc.StreamHandler Srv Stream)
    (w wh : World) (resp : Resp) (err : error)
    (hU : handlerU ctx req w = .ok ((resp, err), wh))
    (hS : handlerS srv stream w = .ok (err, wh)) :
    ∃ gs wU wS,
      UnaryServerInterceptor client o ctx req (Ptr.ref ⟨fullMethod⟩) handlerU w
        = .ok ((resp, err), wU) ∧
      StreamServerInterceptor client o srv stream (Ptr.ref ⟨fullMethod⟩) handlerS w
        = .ok (err, wS) ∧
      wU.sends = wh.sends ++ [(gs, client)] ∧
      wS.sends = wh.sends ++ [(gs, client)] ∧
      wU = grpcStats.send gs client wh ∧
      wS = grpcStats.send gs client wh ∧
      wU = wS := by
  obtain ⟨d1, hd1, _, h1⟩ := unary_run client o ctx req ⟨fullMethod⟩ handlerU w wh resp err hU
  obtain ⟨d2, hd2, _, h2⟩ := stream_run client o srv stream ⟨fullMethod⟩ handlerS w wh err hS
  have hd : d2 = d1 := Option.some.inj (hd2.symm.trans hd1)
  subst hd
  exact ⟨_, _, _, h1, h2, send_sends _ _ _, send_sends _ _ _, rfl, rfl, rfl⟩

/-- Witness of C9: both handlers fail with `NotFound` after 50 ns. -/
theorem C9_unary_stream_same_contract_witness :
    (notFoundUnary () () freshWorld
        = .ok ((0, some (GoError.rpc codes.NotFound (bytes "no such thing"))),
            { freshWorld with now := 1050 }) ∧
      notFoundStream () () freshWorld
        = .ok (some (GoError.rpc codes.NotFound (bytes "no such thing")),
            { freshWorld with now := 1050 })) ∧
    ∃ gs wU wS,
      UnaryServerInterceptor (Ptr.ref 7) Ptr.nil () () (Ptr.ref ⟨bytes "/foo.Bar/Baz"⟩)
        notFoundUnary freshWorld
        = .ok ((0, some (GoError.rpc codes.NotFound (bytes "no such thing"))), wU) ∧
      StreamServerInterceptor (Ptr.ref 7) Ptr.nil () () (Ptr.ref ⟨bytes "/foo.Bar/Baz"⟩)
        notFoundStream freshWorld
        = .ok (some (GoError.rpc codes.NotFound (bytes "no such thing")), wS) ∧
      wU.sends = ({ freshWorld with now := 1050 } : World).sends ++ [(gs, Ptr.ref 7)] ∧
      wS.sends = ({ freshWorld with now := 1050 } : World).sends ++ [(gs, Ptr.ref 7)] ∧
      wU = grpcStats.send gs (Ptr.ref 7) { freshWorld with now := 1050 } ∧
      wS = grpcStats.send gs (Ptr.ref 7) { freshWorld with now := 1050 } ∧
      wU = wS :=
  ⟨⟨rfl, rfl⟩, C9_unary_stream_same_contract (Ptr.ref 7) Ptr.nil (bytes "/foo.Bar/Baz") () ()
    notFoundUnary () () notFoundStream freshWorld _ 0 _ rfl rfl⟩

/-- C10: for every string `fullMethod` whatsoever `path.Dir fullMethod` returns
and is not empty, so `path.Dir(fullMethod)[1:]` is in bounds; hence, with a call
info that is not nil, both interceptors get past the parsing and return what the
handler returned. -/
theorem C10_parsing_never_fails {Ctx Req Resp Srv Stream : Type} (fullMethod : GoString)
    (client : Ptr statsd.Client) (o : Ptr Option)
    (ctx : Ctx) (req : Req) (handlerU : grpc.UnaryHandler Ctx Req Resp)
    (w whU : World) (resp : Resp) (errU : error)
    (srv : Srv) (stream : Stream) (handlerS : grpc.StreamHandler Srv Stream)
    (whS : World) (errS : error)
    (hU : handlerU ctx req w = .ok ((resp, errU), whU))
    (hS : handlerS srv stream w = .ok (errS, whS)) :
    (∃ dir, path.Dir fullMethod = some dir ∧ dir ≠ [] ∧ 1 ≤ dir.length ∧
      sliceFrom dir 1 = .ok (dir.drop 1)) ∧
    (∃ w', UnaryServerInterceptor client o ctx req (Ptr.ref ⟨fullMethod⟩) handlerU w
        = .ok ((resp, errU), w')) ∧
    (∃ w', StreamServerInterceptor client o srv stream (Ptr.ref ⟨fullMethod⟩) handlerS w
        = .ok (errS, w')) := by
  obtain ⟨dir, hd, hne⟩ := path.Dir_total fullMethod
  obtain ⟨_, _, _, h1⟩ := unary_run client o ctx req ⟨fullMethod⟩ handlerU w whU resp errU hU
  obtain ⟨_, _, _, h2⟩ := stream_run client o srv stream ⟨fullMethod⟩ handlerS w whS errS hS
  have hlen : 1 ≤ dir.length := by
    cases dir with
    | nil => exact absurd rfl hne
    | cons a t => simp
  refine ⟨⟨dir, hd, hne, hlen, ?_⟩, ⟨_, h1⟩, ⟨_, h2⟩⟩
  simp [sliceFrom, hlen]

/-- Witness of C10: the empty string as `FullMethod`. -/
theorem C10_parsing_never_fails_witness :
    (okUnary () () freshWorld = .ok ((42, none), { freshWorld with now := 1050 }) ∧
      okStream () () freshWorld = .ok (none, { freshWorld with now := 1050 })) ∧
    (∃ dir, path.Dir [] = some dir ∧ dir ≠ [] ∧ 1 ≤ dir.length ∧
      sliceFrom dir 1 = .ok (dir.drop 1)) ∧
    (∃ w', UnaryServerInterceptor (Ptr.ref 7) Ptr.nil () () (Ptr.ref ⟨[]⟩) okUnary freshWorld
        = .ok ((42, none), w')) ∧
    (∃ w', StreamServerInterceptor (Ptr.ref 7) Ptr.nil () () (Ptr.ref ⟨[]⟩) okStream freshWorld
        = .ok (none, w')) :=
  ⟨⟨rfl, rfl⟩, C10_parsing_never_fails [] (Ptr.ref 7) Ptr.nil () () okUnary freshWorld _ 42 none
    () () okStream _ none rfl rfl⟩

end grpcstatsd
